import Mathlib

/-!
Verification of the Beth Yw? Welsh government data parser
(`Areas` / `Area` / `Measure` aggregate, its parsers and helpers).

The C++ sources are shallowly embedded as executable Lean definitions:

* `std::map<unsigned int, double>` (a Measure's readings) becomes a list of
  `Nat × Rat` pairs kept in strictly ascending key order; `std::map`'s
  insert-or-keep and upsert behaviours are modelled by `insertKeep` and
  `upsertY`.  C++ `double` values are modelled as exact rationals, because
  every property below concerns which value is selected or stored,
  never floating-point rounding.
* `std::map<std::string, T>` (names, measures, areas) becomes an association
  list `List (String × T)` with first-match lookup and in-place upsert.
* A C++ function that can `throw` becomes a function into `Except PError _`
  (or `Option _`); dereferencing an iterator of an empty map — which is
  undefined behaviour in C++ — is modelled as `none`.
* An input stream becomes an explicit `IStream` value: its `good` flag models
  `istream::good()` and its `lines` field models the sequence of lines
  `std::getline` would deliver.

`area.cpp` is not among the given sources, so the `Area` member functions
(`construct`, `setName`, `setMeasure`, `merge`) and `BethYw::filterContains`
are modelled from the specification's words; each such definition carries a
doc comment starting with `Modelled from the spec:`.  Everything else is
translated directly from `measure.cpp`, `bethyw.cpp` and `areas.cpp`.
-/

/-- The error taxonomy used by the C++ sources: `std::out_of_range`,
`std::runtime_error` and `std::invalid_argument`, each carrying its message. -/
inductive PError where
  | outOfRange (msg : String)
  | runtime (msg : String)
  | invalidArg (msg : String)
deriving Repr, DecidableEq

deriving instance DecidableEq for Except

/-- ASCII lower-casing of one character, modelling C `std::tolower` in the
default locale. -/
def asciiLower (c : Char) : Char :=
  if 'A' ≤ c ∧ c ≤ 'Z' then Char.ofNat (c.toNat + 32) else c

/-- `BethYw::convertToLower` (bethyw.cpp): builds a new string by appending
`std::tolower` of every character of the input. -/
def convertToLower (s : String) : String :=
  String.mk (s.data.map asciiLower)

/-- `BethYw::insensitiveEquals` (bethyw.cpp): case-insensitive string
comparison via `convertToLower` on both sides. -/
def insensitiveEquals (a b : String) : Bool :=
  convertToLower a == convertToLower b

/-- The digit-fold value of a string, modelling `std::stoi` on the
all-digit strings on which `BethYw::validateYear` applies it. -/
def strToNat (s : String) : Nat :=
  s.data.foldl (fun n c => n * 10 + (c.toNat - 48)) 0

/-- `BethYw::validateYear` (bethyw.cpp): the literal "0" is returned as the
sentinel value 0; otherwise the string must have exactly four characters,
all of them digits, and denote a year strictly below 2021, else
`std::invalid_argument` ("Invalid input for years argument") is thrown. -/
def validateYear (s : String) : Except PError Nat :=
  if s = "0" then .ok 0
  else if s.length ≠ 4 then .error (.invalidArg "Invalid input for years argument")
  else if s.data.any (fun c => !c.isDigit) then
    .error (.invalidArg "Invalid input for years argument")
  else if 2021 ≤ strToNat s then .error (.invalidArg "Invalid input for years argument")
  else .ok (strToNat s)

/-- Modelled from the spec: `BethYw::filterContains` is declared in the
headers but its definition is not among the given sources.  Per the spec,
filter membership for measures is case-insensitive (an empty filter is
handled by the callers' `all…` flags before this is reached). -/
def filterContains (filter : List String) (v : String) : Bool :=
  filter.any (fun f => insensitiveEquals f v)

/-! ### The readings map: `std::map<unsigned int, double>` -/

/-- First-match lookup in a year-keyed association list, modelling
`std::map::find` on a map whose keys are unique. -/
def lookupY : List (Nat × Rat) → Nat → Option Rat
  | [], _ => none
  | (k', v') :: rest, k => if k = k' then some v' else lookupY rest k

/-- Ordered insert that overwrites an existing entry with the same key
(`std::map` upsert, as performed by `Measure::setValue`). -/
def upsertY : List (Nat × Rat) → Nat → Rat → List (Nat × Rat)
  | [], k, v => [(k, v)]
  | (k', v') :: rest, k, v =>
    if k < k' then (k, v) :: (k', v') :: rest
    else if k = k' then (k, v) :: rest
    else (k', v') :: upsertY rest k v

/-- Ordered insert that keeps an existing entry with the same key:
`std::map::insert` never overwrites.  This is the operation
`Measure::merge` performs element by element. -/
def insertKeep : List (Nat × Rat) → Nat → Rat → List (Nat × Rat)
  | [], k, v => [(k, v)]
  | (k', v') :: rest, k, v =>
    if k < k' then (k, v) :: (k', v') :: rest
    else if k = k' then (k', v') :: rest
    else (k', v') :: insertKeep rest k v

/-- The `std::map` key invariant: keys strictly ascending. -/
def sortedY (l : List (Nat × Rat)) : Prop :=
  l.Pairwise (fun a b => a.1 < b.1)

/-! ### Measure (measure.cpp) -/

/-- The `Measure` class: codename, label, and readings keyed by year. -/
structure Measure where
  codename : String
  label : String
  readings : List (Nat × Rat)
deriving Repr, DecidableEq

/-- `Measure::Measure(codename, label)` (measure.cpp, lines 47-54): a
lower-cased copy `temp` of the codename is built, but the member is then
assigned from the ORIGINAL `codename` parameter, exactly as in the source
(`this->codename = codename;` — `temp` is never used). -/
def Measure.construct (codename label : String) : Measure :=
  let temp := convertToLower codename
  let _ := temp
  { codename := codename, label := label, readings := [] }

/-- `Measure::getCodename`. -/
def Measure.getCodename (m : Measure) : String := m.codename

/-- `Measure::getLabel`. -/
def Measure.getLabel (m : Measure) : String := m.label

/-- `Measure::setLabel`. -/
def Measure.setLabel (m : Measure) (label : String) : Measure :=
  { m with label := label }

/-- `Measure::getValue(key)`: throws `std::out_of_range`
("No value found for year <year>") when the year is absent. -/
def Measure.getValue (m : Measure) (key : Nat) : Except PError Rat :=
  match lookupY m.readings key with
  | none => .error (.outOfRange ("No value found for year " ++ toString key))
  | some v => .ok v

/-- `Measure::setValue(key, value)`: the source first assigns through
`find` when the key is present and then calls `insert` (a no-op in that
case); when absent `insert` adds the pair.  The net effect is an upsert. -/
def Measure.setValue (m : Measure) (key : Nat) (value : Rat) : Measure :=
  { m with readings := upsertY m.readings key value }

/-- `Measure::size()`. -/
def Measure.size (m : Measure) : Nat := m.readings.length

/-- `Measure::getAverage()`: 0 when there are no readings, otherwise the
sum over the map divided by its size. -/
def Measure.getAverage (m : Measure) : Rat :=
  if m.readings.length = 0 then 0
  else (m.readings.foldl (fun s r => s + r.2) 0) / (m.readings.length : Rat)

/-- `Measure::getDifference()` (measure.cpp, lines 206-208): the source
unconditionally dereferences `readings.rbegin()` and `readings.begin()`.
On an empty map that dereference is undefined behaviour, modelled here as
`none`; otherwise the result is last value minus first value. -/
def Measure.getDifference? (m : Measure) : Option Rat :=
  match m.readings.getLast?, m.readings.head? with
  | some lastR, some firstR => some (lastR.2 - firstR.2)
  | _, _ => none

/-- `Measure::getDifferenceAsPercentage()` (measure.cpp, lines 225-229):
returns 0 when `getDifference()` is 0, otherwise divides by the first
year's value and multiplies by 100.  It inherits `getDifference`'s
empty-map undefined behaviour, modelled as `none`. -/
def Measure.getDifferenceAsPercentage? (m : Measure) : Option Rat :=
  match m.getDifference? with
  | none => none
  | some d =>
    if d = 0 then some 0
    else
      match m.readings.head? with
      | none => none
      | some firstR => some (d / firstR.2 * 100)

/-- `Measure::merge(measureNew)` (measure.cpp, lines 346-348):
`readings.insert(measureNew.readings.begin(), measureNew.readings.end())` —
a range `std::map::insert`, which inserts each incoming pair but KEEPS the
existing value whenever the key is already present. -/
def Measure.merge (m mNew : Measure) : Measure :=
  { m with readings := mNew.readings.foldl (fun acc p => insertKeep acc p.1 p.2) m.readings }

/-- Abstraction of `std::to_string(double)`; the rendering properties below
depend only on which lines are produced, never on numeric formatting. -/
def fmtVal (v : Rat) : String := toString v

/-- `operator<<(std::ostream&, const Measure&)` (measure.cpp, lines
294-305), one list entry per output line: the label/codename line, then the
year-header line ending in "Average/Diff./% Diff.", then the value line
ending in average, difference and percentage difference.  The source has no
special branch for an empty measure and computes `getDifference()` and
`getDifferenceAsPercentage()` unconditionally, so on an empty readings map
it hits their undefined behaviour — modelled as `none`. -/
def Measure.render? (m : Measure) : Option (List String) :=
  let tab := "    "
  let line1 := m.label ++ tab ++ "(" ++ m.codename ++ ")"
  let line2 := String.join (m.readings.map (fun r => tab ++ toString r.1)) ++
      tab ++ "Average" ++ tab ++ "Diff." ++ tab ++ " % Diff."
  match m.getDifference?, m.getDifferenceAsPercentage? with
  | some d, some p =>
    some [line1, line2,
      String.join (m.readings.map (fun r => fmtVal r.2 ++ " ")) ++
        fmtVal m.getAverage ++ tab ++ fmtVal d ++ tab ++ fmtVal p]
  | _, _ => none

/-- Applying a sequence of `setValue` calls in order. -/
def Measure.applySetValues (m : Measure) (ops : List (Nat × Rat)) : Measure :=
  ops.foldl (fun acc p => acc.setValue p.1 p.2) m

/-- Specification-side definition for claim C5: the most recently set value
for a year in a sequence of `(year, value)` calls, `none` when the year was
never set. -/
def specMostRecentValue : List (Nat × Rat) → Nat → Option Rat
  | [], _ => none
  | (k, v) :: rest, y =>
    match specMostRecentValue rest y with
    | some w => some w
    | none => if k = y then some v else none

/-! ### String-keyed association lists: `std::map<std::string, T>` -/

/-- First-match lookup, modelling `std::map::find` / `std::map::at` on a
string-keyed map with unique keys. -/
def lookupA {α : Type} : List (String × α) → String → Option α
  | [], _ => none
  | (k', v') :: rest, k => if k = k' then some v' else lookupA rest k

/-- In-place upsert for a string-keyed association list: replaces the first
entry with the given key, or appends when the key is absent.  On a
unique-key list this models `std::map` insert-or-assign. -/
def upsertA {α : Type} : List (String × α) → String → α → List (String × α)
  | [], k, v => [(k, v)]
  | (k', v') :: rest, k, v =>
    if k = k' then (k, v) :: rest else (k', v') :: upsertA rest k v

/-! ### Area (area.cpp is not among the given sources) -/

/-- The `Area` class: authority code, language-keyed names, and
codename-keyed measures. -/
structure Area where
  localAuthorityCode : String
  names : List (String × String)
  measures : List (String × Measure)
deriving Repr, DecidableEq

/-- Modelled from the spec: `Area::Area(code)` from area.cpp is missing;
§4.2 — stores the code with empty names and measures mappings. -/
def Area.construct (code : String) : Area :=
  { localAuthorityCode := code, names := [], measures := [] }

/-- Modelled from the spec: `Area::setName` from area.cpp is missing;
§4.2 — upsert into the names mapping. -/
def Area.setName (a : Area) (lang name : String) : Area :=
  { a with names := upsertA a.names lang name }

/-- Specification-side measure merge used by the modelled Area operations:
union of the reading maps in which a year present in both takes the
INCOMING value (§3 "Measure merge: union of reading maps; for a year
present in both, the incoming value wins"). -/
def specMeasureMergeIncomingWins (existing incoming : Measure) : Measure :=
  { existing with
    readings := incoming.readings.foldl (fun acc p => upsertY acc p.1 p.2) existing.readings }

/-- Modelled from the spec: `Area::setMeasure` from area.cpp is missing;
§4.2 — when a measure with that codename already exists, merge the incoming
measure into the existing one with incoming readings winning on year
conflicts; otherwise insert the incoming measure directly. -/
def Area.setMeasure (a : Area) (codename : String) (m : Measure) : Area :=
  match lookupA a.measures codename with
  | some existing =>
    { a with measures := upsertA a.measures codename (specMeasureMergeIncomingWins existing m) }
  | none => { a with measures := upsertA a.measures codename m }

/-- Modelled from the spec: `Area::merge(other)` from area.cpp is missing;
§3/§4.2 — `other` is the incoming/authoritative side: its name entries
overwrite the same language codes in `self`, its measures are merged by
codename with incoming readings winning, and entries present only in
`self` are preserved. -/
def Area.merge (self other : Area) : Area :=
  let names := other.names.foldl (fun acc p => upsertA acc p.1 p.2) self.names
  let measures := other.measures.foldl (fun acc p =>
      match lookupA acc p.1 with
      | some existing => upsertA acc p.1 (specMeasureMergeIncomingWins existing p.2)
      | none => upsertA acc p.1 p.2) self.measures
  { self with names := names, measures := measures }

/-! ### Areas (areas.cpp) -/

/-- The `Areas` container: `std::map<std::string, Area>`. -/
def AreasMap : Type := List (String × Area)

instance : DecidableEq AreasMap := by
  unfold AreasMap
  infer_instance

/-- `Areas::setArea(localAuthorityCode, area)` (areas.cpp, lines 70-78):
when the code is absent the incoming area is inserted; otherwise the source
executes `area.merge(areas.at(code)); areas.at(code) = area;` — that is,
the EXISTING stored area is passed as the incoming/authoritative argument
of `Area::merge` on the new area, and the result replaces the stored one. -/
def Areas.setArea (A : AreasMap) (localAuthorityCode : String) (area : Area) : AreasMap :=
  match lookupA A localAuthorityCode with
  | none => upsertA A localAuthorityCode area
  | some existing => upsertA A localAuthorityCode (area.merge existing)

/-- `Areas::getArea` (areas.cpp): throws `std::out_of_range`
("No area found matching <code>") when the code is absent. -/
def Areas.getArea (A : AreasMap) (localAuthorityCode : String) : Except PError Area :=
  match lookupA A localAuthorityCode with
  | none => .error (.outOfRange ("No area found matching " ++ localAuthorityCode))
  | some a => .ok a

/-- `Areas::size()`. -/
def Areas.sizeOf (A : AreasMap) : Nat := A.length

/-- `Areas::getVerableCSV(line)` (areas.cpp, lines 806-814): returns the
text before the first comma and removes it (and the comma) from the line;
when the line has no comma it returns the whole line and leaves the line
unchanged.  Modelled as a pure pair (extracted field, remaining line). -/
def getVerableCSV (line : String) : String × String :=
  match line.splitOn "," with
  | [] => (line, line)
  | [_] => (line, line)
  | x :: rest => (x, String.intercalate "," rest)

/-! ### Input streams and parsing (areas.cpp) -/

/-- An input stream as the parsers observe it: `good` models
`istream::good()` at entry, `lines` the successive results of
`std::getline` (an empty list means the very first `getline` fails, i.e.
the stream has no content). -/
structure IStream where
  good : Bool
  lines : List String
deriving Repr, DecidableEq

/-- The logical column roles of `BethYw::SourceColumn` (datasets.h). -/
inductive SourceColumn where
  | AUTH_CODE
  | AUTH_NAME_ENG
  | AUTH_NAME_CYM
  | MEASURE_CODE
  | MEASURE_NAME
  | YEAR
  | SINGLE_MEASURE_CODE
  | SINGLE_MEASURE_NAME
deriving Repr, DecidableEq

/-- A column mapping `BethYw::SourceColumnMapping`; the parsers in
areas.cpp inspect only its size and its entries. -/
def SourceColumnMapping : Type := List (SourceColumn × String)

/-- `BethYw::SourceDataType` (datasets.h): the closed format enum. -/
inductive SourceDataType where
  | AuthorityCodeCSV
  | AuthorityByYearCSV
  | WelshStatsJSON
deriving Repr, DecidableEq

/-- One row of `areas.csv` processed by the loop body of
`Areas::populateFromAuthorityCodeCSV` (areas.cpp, lines 200-208): the first
field is the code; when the row passes the area filter an `Area` is built
with the next two fields as its "eng" and "cym" names and stored through
`setArea`. -/
def processAuthorityCodeRow (allB : Bool) (filter : List String) (A : AreasMap)
    (line : String) : AreasMap :=
  let (code, line1) := getVerableCSV line
  if allB || filter.contains code then
    let (eng, line2) := getVerableCSV line1
    let (cym, _) := getVerableCSV line2
    Areas.setArea A code (((Area.construct code).setName "eng" eng).setName "cym" cym)
  else A

/-- `Areas::populateFromAuthorityCodeCSV` (areas.cpp, lines 179-209):
throws `std::out_of_range` when the column mapping has fewer than 3
entries, `std::runtime_error` ("Failed to open file") when the stream is
not good; otherwise discards the header line and folds the row-processing
loop over the remaining lines.  The area filter pointer may be null
(`none`), which like an empty set disables filtering.  Note that a good
stream with no content passes the checks and simply processes zero rows. -/
def Areas.populateFromAuthorityCodeCSV (st : IStream) (cols : SourceColumnMapping)
    (areasFilter : Option (List String)) (A : AreasMap) : Except PError AreasMap :=
  if cols.length < 3 then .error (.outOfRange "Not enough columns")
  else if !st.good then .error (.runtime "Failed to open file")
  else
    let allB := areasFilter.isNone || (areasFilter.getD []).isEmpty
    .ok ((st.lines.drop 1).foldl (processAuthorityCodeRow allB (areasFilter.getD [])) A)

/-- One record of the `value` array of a StatsWales JSON document, with the
column-mapping lookups of areas.cpp lines 335-351 already resolved to
fields (`data[cols.at(AUTH_CODE)]` becomes `authCode`, and so on; `dataVal`
is the value under the fixed "Data" key). -/
structure StatsRecord where
  authCode : String
  authNameEng : String
  measureCode : String
  measureName : String
  yearStr : String
  dataVal : Rat
deriving Repr, DecidableEq

/-- The loop body of `Areas::populateFromWelshStatsJSON` (areas.cpp, lines
333-358) for one record: the area filter gates everything; an absent area
is created with its English name and inserted directly; the measure filter
is checked against the lower-cased measure code; a fresh `Measure` is
constructed from the record's (original-case) measure code and name;
`validateYear` may throw; the value is recorded only when the year filter
passes, but `areas.at(code).setMeasure(measureCode, measure)` runs
regardless, so the (possibly empty) measure is always stored. -/
def processWelshStatsRecord (allAreas allMeasures allYears : Bool)
    (areasFilterL measuresFilterL : List String) (yearStart yearEnd : Nat)
    (A : AreasMap) (r : StatsRecord) : Except PError AreasMap :=
  if allAreas || filterContains areasFilterL r.authCode then
    let A :=
      if (lookupA A r.authCode).isNone then
        upsertA A r.authCode ((Area.construct r.authCode).setName "eng" r.authNameEng)
      else A
    let lowerMeasureCode := convertToLower r.measureCode
    if allMeasures || filterContains measuresFilterL lowerMeasureCode then
      let measure := Measure.construct r.measureCode r.measureName
      match validateYear r.yearStr with
      | .error e => .error e
      | .ok year =>
        let measure :=
          if allYears || (decide (yearStart ≤ year) && decide (year ≤ yearEnd)) then
            measure.setValue year r.dataVal
          else measure
        match lookupA A r.authCode with
        | some a => .ok (upsertA A r.authCode (a.setMeasure r.measureCode measure))
        | none => .error (.outOfRange "map::at")
    else .ok A
  else .ok A

/-- The record loop of `Areas::populateFromWelshStatsJSON`: records are
processed in order and the first thrown error aborts the whole call. -/
def welshStatsLoop (allAreas allMeasures allYears : Bool)
    (areasFilterL measuresFilterL : List String) (yearStart yearEnd : Nat) :
    List StatsRecord → AreasMap → Except PError AreasMap
  | [], A => .ok A
  | r :: rest, A =>
    match processWelshStatsRecord allAreas allMeasures allYears
        areasFilterL measuresFilterL yearStart yearEnd A r with
    | .error e => .error e
    | .ok A' => welshStatsLoop allAreas allMeasures allYears
        areasFilterL measuresFilterL yearStart yearEnd rest A'

/-- `Areas::populateFromWelshStatsJSON` (areas.cpp, lines 315-359), acting
on the already-parsed `value` array.  The filter pointers are modelled as
`Option` values (`none` = null pointer).  The source computes
`allMeasures` as `areasFilter == nullptr || measuresFilter->empty()` — the
null check is (buggily) on the AREAS filter pointer; with a non-null areas
filter and a null measures filter the C++ would dereference null, which we
model as the measures filter defaulting to empty.  The years filter is a
plain pair because the source dereferences the pointer unconditionally on
entry. -/
def Areas.populateFromWelshStatsJSON (records : List StatsRecord)
    (areasFilter measuresFilter : Option (List String)) (yearsFilter : Nat × Nat)
    (A : AreasMap) : Except PError AreasMap :=
  let yearStart := yearsFilter.1
  let yearEnd := yearsFilter.2
  let allAreas := areasFilter.isNone || (areasFilter.getD []).isEmpty
  let allMeasures := areasFilter.isNone || (measuresFilter.getD []).isEmpty
  let allYears := decide (yearStart = 0) && decide (yearEnd = 0)
  welshStatsLoop allAreas allMeasures allYears
    (areasFilter.getD []) (measuresFilter.getD []) yearStart yearEnd records A

/-- `Areas::populateFromAuthorityByYearCSV` (areas.cpp, lines 426-432): the
body unconditionally throws
`std::runtime_error` — the function is not implemented. -/
def Areas.populateFromAuthorityByYearCSV (_st : IStream) (_cols : SourceColumnMapping)
    (_areasFilter _measuresFilter : Option (List String)) (_yearsFilter : Nat × Nat)
    (_A : AreasMap) : Except PError AreasMap :=
  .error (.runtime "Areas::populateFromAuthorityByYearCSV is not implemented")

/-- What a `populate` call receives: either a character stream (for the CSV
parsers) or a stream whose content the JSON library parses into the `value`
record array (`is >> j`); `jsonDoc none` models content the JSON library
rejects with a parse error. -/
inductive SourceInput where
  | csv (st : IStream)
  | jsonDoc (records : Option (List StatsRecord))
deriving Repr, DecidableEq

/-- `Areas::populate` with filters (areas.cpp, lines 574-592): dispatches
on the format when the column mapping is large enough (3 for the CSV
formats, 6 for WelshStatsJSON) and otherwise throws `std::runtime_error`
("Areas::populate: Unexpected data type").  Feeding a stream whose shape
does not match the chosen parser is modelled as the parse error the
mismatched parser would raise. -/
def Areas.populate (input : SourceInput) (type : SourceDataType)
    (cols : SourceColumnMapping) (areasFilter measuresFilter : Option (List String))
    (yearsFilter : Nat × Nat) (A : AreasMap) : Except PError AreasMap :=
  if type = .AuthorityCodeCSV ∧ ¬(cols.length < 3) then
    match input with
    | .csv st => Areas.populateFromAuthorityCodeCSV st cols areasFilter A
    | .jsonDoc _ => .error (.runtime "stream content does not match format")
  else if type = .AuthorityByYearCSV ∧ ¬(cols.length < 3) then
    match input with
    | .csv st => Areas.populateFromAuthorityByYearCSV st cols areasFilter measuresFilter
        yearsFilter A
    | .jsonDoc _ => .error (.runtime "Areas::populateFromAuthorityByYearCSV is not implemented")
  else if type = .WelshStatsJSON ∧ ¬(cols.length < 6) then
    match input with
    | .jsonDoc (some records) =>
        Areas.populateFromWelshStatsJSON records areasFilter measuresFilter yearsFilter A
    | _ => .error (.runtime "json parse error")
  else .error (.runtime "Areas::populate: Unexpected data type")

/-- The three-column mapping of the areas.csv dataset
(`InputFiles::AREAS.COLS` in datasets.h). -/
def colsAreasCSV : SourceColumnMapping :=
  [(.AUTH_CODE, "Local authority code"),
   (.AUTH_NAME_ENG, "Name (eng)"),
   (.AUTH_NAME_CYM, "Name (cym)")]

/-- A sufficient column mapping for an AuthorityByYearCSV dataset such as
complete-popu1009-pop.csv. -/
def colsCompletePopCSV : SourceColumnMapping :=
  [(.AUTH_CODE, "AuthorityCode"),
   (.SINGLE_MEASURE_CODE, "pop"),
   (.SINGLE_MEASURE_NAME, "Population")]

/-! ### Association-list lemmas -/

theorem lookupY_upsertY (l : List (Nat × Rat)) (k : Nat) (v : Rat) (y : Nat) :
    lookupY (upsertY l k v) y = if y = k then some v else lookupY l y := by
  induction l with
  | nil => simp [upsertY, lookupY]
  | cons hd tl ih =>
    obtain ⟨k', v'⟩ := hd
    by_cases h1 : k < k'
    · simp [upsertY, h1, lookupY]
    · by_cases h2 : k = k'
      · subst h2
        simp only [upsertY, if_neg h1, if_pos rfl, lookupY]
        by_cases hy : y = k
        · simp [hy]
        · simp [hy]
      · simp only [upsertY, if_neg h1, if_neg h2, lookupY, ih]
        by_cases hy1 : y = k'
        · subst hy1
          have : ¬ y = k := fun h => h2 h.symm
          simp [this]
        · simp [hy1]

theorem mem_upsertY {l : List (Nat × Rat)} {k : Nat} {v : Rat} {x : Nat × Rat}
    (hx : x ∈ upsertY l k v) : x = (k, v) ∨ x ∈ l := by
  induction l with
  | nil =>
    simp only [upsertY] at hx
    rcases List.mem_cons.mp hx with h | h
    · exact Or.inl h
    · exact absurd h (List.not_mem_nil x)
  | cons hd tl ih =>
    obtain ⟨k', v'⟩ := hd
    simp only [upsertY] at hx
    by_cases h1 : k < k'
    · rw [if_pos h1] at hx
      rcases List.mem_cons.mp hx with h | h
      · exact Or.inl h
      · exact Or.inr h
    · rw [if_neg h1] at hx
      by_cases h2 : k = k'
      · rw [if_pos h2] at hx
        rcases List.mem_cons.mp hx with h | h
        · exact Or.inl h
        · exact Or.inr (List.mem_cons.mpr (Or.inr h))
      · rw [if_neg h2] at hx
        rcases List.mem_cons.mp hx with h | h
        · exact Or.inr (List.mem_cons.mpr (Or.inl h))
        · rcases ih h with h' | h'
          · exact Or.inl h'
          · exact Or.inr (List.mem_cons.mpr (Or.inr h'))

theorem sortedY_upsertY {l : List (Nat × Rat)} (k : Nat) (v : Rat)
    (hl : sortedY l) : sortedY (upsertY l k v) := by
  induction l with
  | nil => simp [upsertY, sortedY]
  | cons hd tl ih =>
    obtain ⟨k', v'⟩ := hd
    rw [sortedY, List.pairwise_cons] at hl
    obtain ⟨hhead, htl⟩ := hl
    by_cases h1 : k < k'
    · rw [sortedY]
      simp only [upsertY, if_pos h1]
      refine List.Pairwise.cons ?_ ?_
      · intro b hb
        rcases List.mem_cons.mp hb with h | h
        · subst h; exact h1
        · exact lt_trans h1 (hhead b h)
      · exact List.Pairwise.cons hhead htl
    · by_cases h2 : k = k'
      · subst h2
        rw [sortedY]
        simp only [upsertY, if_neg h1, if_pos rfl]
        exact List.Pairwise.cons hhead htl
      · have hk : k' < k := by omega
        rw [sortedY]
        simp only [upsertY, if_neg h1, if_neg h2]
        refine List.Pairwise.cons ?_ (ih htl)
        intro b hb
        rcases mem_upsertY hb with h | h
        · subst h; exact hk
        · exact hhead b h

theorem keys_upsertY (l : List (Nat × Rat)) (k : Nat) (v : Rat) :
    ((upsertY l k v).map Prod.fst).toFinset = insert k ((l.map Prod.fst).toFinset) := by
  induction l with
  | nil => simp [upsertY]
  | cons hd tl ih =>
    obtain ⟨k', v'⟩ := hd
    by_cases h1 : k < k'
    · simp [upsertY, h1]
    · by_cases h2 : k = k'
      · subst h2
        simp [upsertY, h1, Finset.insert_idem]
      · simp only [upsertY, if_neg h1, if_neg h2, List.map_cons, List.toFinset_cons, ih]
        rw [Finset.Insert.comm]

theorem readings_applySetValues_cons (m : Measure) (k : Nat) (v : Rat)
    (rest : List (Nat × Rat)) :
    Measure.applySetValues m ((k, v) :: rest) = Measure.applySetValues (m.setValue k v) rest := by
  rfl

theorem lookupY_applySetValues (ops : List (Nat × Rat)) (m : Measure) (y : Nat) :
    lookupY (m.applySetValues ops).readings y =
      match specMostRecentValue ops y with
      | some w => some w
      | none => lookupY m.readings y := by
  induction ops generalizing m with
  | nil => rfl
  | cons hd rest ih =>
    obtain ⟨k, v⟩ := hd
    rw [readings_applySetValues_cons, ih]
    cases hrest : specMostRecentValue rest y with
    | some w => simp [specMostRecentValue, hrest]
    | none =>
      simp only [specMostRecentValue, hrest, Measure.setValue, lookupY_upsertY]
      by_cases hy : y = k
      · subst hy
        simp
      · have : ¬ k = y := fun h => hy h.symm
        simp [hy, this]

theorem sortedY_applySetValues (ops : List (Nat × Rat)) (m : Measure)
    (hm : sortedY m.readings) : sortedY (m.applySetValues ops).readings := by
  induction ops generalizing m with
  | nil => exact hm
  | cons hd rest ih =>
    obtain ⟨k, v⟩ := hd
    rw [readings_applySetValues_cons]
    exact ih _ (sortedY_upsertY k v hm)

theorem keys_applySetValues (ops : List (Nat × Rat)) (m : Measure) :
    ((m.applySetValues ops).readings.map Prod.fst).toFinset =
      (m.readings.map Prod.fst).toFinset ∪ (ops.map Prod.fst).toFinset := by
  induction ops generalizing m with
  | nil => simp [Measure.applySetValues]
  | cons hd rest ih =>
    obtain ⟨k, v⟩ := hd
    rw [readings_applySetValues_cons, ih]
    simp only [Measure.setValue, keys_upsertY, List.map_cons, List.toFinset_cons]
    rw [Finset.insert_union, Finset.union_insert]

theorem nodup_keys_of_sortedY {l : List (Nat × Rat)} (hl : sortedY l) :
    (l.map Prod.fst).Nodup := by
  have : (l.map Prod.fst).Pairwise (· < ·) := List.Pairwise.map Prod.fst (fun _ _ h => h) hl
  exact this.imp Nat.ne_of_lt

/-! ### Claim theorems -/

/-- C1: the claim states that after `m.merge(n)` a year present in both
maps holds `n`'s (incoming) value, so merging {1999:1, 2000:2} with
incoming {2000:99, 2001:3} should yield {1999:1, 2000:99, 2001:3}.  The
source performs a range `std::map::insert`, which KEEPS the existing
value: the merge of those two measures actually yields
{1999:1, 2000:2, 2001:3}, with the existing value 2 (not 99) at year
2000. -/
theorem measureMerge_keeps_existing_on_conflict :
    (let m := ((Measure.construct "pop" "Population").setValue 1999 1).setValue 2000 2
     let n := ((Measure.construct "pop" "Population").setValue 2000 99).setValue 2001 3
     (m.merge n).readings = [(1999, 1), (2000, 2), (2001, 3)] ∧
       (m.merge n).getValue 2000 = .ok 2 ∧ ¬ (m.merge n).getValue 2000 = .ok 99) := by
  refine ⟨by decide, by decide, by decide⟩

/-- C3: the claim states that construction normalizes the codename to
lowercase.  The constructor builds the lower-cased copy but then stores
the ORIGINAL string: constructing with codename "Pop" yields
`getCodename() = "Pop"`, not the lower-cased "pop" (which is what
`convertToLower` would have produced).  The label is stored unchanged, as
claimed. -/
theorem measureConstruct_does_not_lowercase_codename :
    (Measure.construct "Pop" "Population").getCodename = "Pop" ∧
      convertToLower "Pop" = "pop" ∧ ¬ ("Pop" = "pop") ∧
      (Measure.construct "Pop" "Population").getLabel = "Population" := by
  refine ⟨rfl, by decide, by decide, rfl⟩

/-- C4: the claim states that `getAverage`, `getDifference` and
`getDifferenceAsPercentage` are total and return 0 on a measure with zero
readings.  `getAverage` does return 0, but `getDifference` (and therefore
`getDifferenceAsPercentage`) dereferences `begin()`/`rbegin()` of the
empty readings map — undefined behaviour, modelled as `none` — instead of
returning 0. -/
theorem measureStats_empty_difference_is_undefined :
    (Measure.construct "pop" "Population").getAverage = 0 ∧
      (Measure.construct "pop" "Population").getDifference? = none ∧
      ¬ (Measure.construct "pop" "Population").getDifference? = some 0 ∧
      (Measure.construct "pop" "Population").getDifferenceAsPercentage? = none := by
  refine ⟨by decide, rfl, by decide, rfl⟩

/-- C9: the claim states that a measure with zero readings renders as the
label/codename line followed by the literal "<no data>" marker, with all
other rows suppressed.  The rendering operator has no empty-measure branch
at all: it unconditionally emits the year-header row and computes
`getDifference()`, hitting the empty-map undefined behaviour (modelled as
`none`) rather than producing any two-line "<no data>" output. -/
theorem measureRender_empty_has_no_nodata_branch :
    (Measure.construct "pop" "Population").render? = none ∧
      ¬ (Measure.construct "pop" "Population").render? =
          some ["Population    (pop)", "<no data>"] := by
  refine ⟨rfl, by decide⟩

/-- C2: the claim states that `setArea` on an existing code merges with
the INCOMING data taking precedence on conflicts, and that `size()` stays
1 after a second `setArea` with the same code.  The no-duplicate/size part
holds, but `setArea` executes `area.merge(areas.at(code))`, passing the
EXISTING stored area as the authoritative argument of `Area::merge`
(modelled from the spec, where the argument side overwrites): storing an
area with name eng="Old" and then one with eng="New" under the same code
leaves one entry whose "eng" name is the existing "Old", not the incoming
"New". -/
theorem setArea_existing_data_takes_precedence :
    (let A := Areas.setArea (Areas.setArea [] "W1" ((Area.construct "W1").setName "eng" "Old"))
        "W1" ((Area.construct "W1").setName "eng" "New")
     Areas.sizeOf A = 1 ∧
       (lookupA A "W1").map (fun a => lookupA a.names "eng") = some (some "Old") ∧
       ¬ (lookupA A "W1").map (fun a => lookupA a.names "eng") = some (some "New")) := by
  refine ⟨rfl, by decide, by decide⟩

/-- C7: the claim states that for every format `Areas::populate` on a
stream that is not open/readable or HAS NO CONTENT fails with a parse
error before reading rows, leaving the mapping unchanged.  For
AuthorityCodeCSV the source checks only `is.good()`: a good stream with no
content passes the check, the row loop runs zero times, and the call
returns successfully (`.ok`) with the areas unchanged — no parse error is
raised.  (The unchanged-mapping half of the claim does hold.) -/
theorem populate_empty_content_stream_succeeds (A : AreasMap) :
    Areas.populate (.csv ⟨true, []⟩) .AuthorityCodeCSV colsAreasCSV (some []) none (0, 0) A
      = .ok A := by
  rfl

/-- C8: the claim states that populate with format AuthorityByYearCSV and
a sufficient column mapping ingests the file's rows as readings.  The
source of `Areas::populateFromAuthorityByYearCSV` unconditionally throws
`std::runtime_error` — it is not implemented — so populate with this
format never ingests anything. -/
theorem populateAuthorityByYearCSV_always_throws :
    Areas.populate (.csv ⟨true, ["AuthorityCode,1999,2000", "W06000001,5,7"]⟩)
        .AuthorityByYearCSV colsCompletePopCSV (some []) (some []) (0, 0) []
      = .error (.runtime "Areas::populateFromAuthorityByYearCSV is not implemented") := by
  rfl

theorem lookupA_upsertA_self {α : Type} (l : List (String × α)) (k : String) (v : α) :
    lookupA (upsertA l k v) k = some v := by
  induction l with
  | nil => simp [upsertA, lookupA]
  | cons hd tl ih =>
    obtain ⟨k', v'⟩ := hd
    by_cases h : k = k'
    · simp [upsertA, h, lookupA]
    · simp [upsertA, h, lookupA, ih]

/-- C5: for every finite sequence of `setValue(year, v)` calls on a fresh
Measure, `getValue(year)` returns the most recently set value for that
year (and throws the NotFound/out-of-range error for a year never set),
and `size()` equals the number of distinct years set. -/
theorem setValue_getValue_size_spec (c l : String) (ops : List (Nat × Rat)) (y : Nat) :
    ((Measure.construct c l).applySetValues ops).getValue y =
      (match specMostRecentValue ops y with
       | some v => Except.ok v
       | none => Except.error (PError.outOfRange ("No value found for year " ++ toString y))) ∧
    ((Measure.construct c l).applySetValues ops).size = (ops.map Prod.fst).toFinset.card := by
  constructor
  · rw [Measure.getValue, lookupY_applySetValues]
    cases specMostRecentValue ops y with
    | some w => rfl
    | none => simp [Measure.construct, lookupY]
  · have hsorted : sortedY ((Measure.construct c l).applySetValues ops).readings :=
      sortedY_applySetValues ops _ (by simp [Measure.construct, sortedY])
    have hnodup := nodup_keys_of_sortedY hsorted
    have hkeys := keys_applySetValues ops (Measure.construct c l)
    rw [Measure.size,
      show ((Measure.construct c l).applySetValues ops).readings.length
          = (((Measure.construct c l).applySetValues ops).readings.map Prod.fst).length by simp,
      ← List.toFinset_card_of_nodup hnodup, hkeys]
    simp [Measure.construct]

/-- C6: year-string validation returns 0 for the literal "0" sentinel,
returns the denoted integer for an exactly-4-digit string below the 2021
cutoff, and throws the ValidationError exactly when the string is not the
sentinel and is not exactly 4 digits, contains a non-digit character, or
denotes a year at/after 2021. -/
theorem validateYear_spec (s : String) :
    (s = "0" → validateYear s = .ok 0) ∧
    (¬ s = "0" → s.length = 4 → (∀ c ∈ s.data, c.isDigit = true) → strToNat s < 2021 →
      validateYear s = .ok (strToNat s)) ∧
    (validateYear s = .error (.invalidArg "Invalid input for years argument") ↔
      ¬ s = "0" ∧ (¬ s.length = 4 ∨ (∃ c ∈ s.data, ¬ c.isDigit = true) ∨
        ((∀ c ∈ s.data, c.isDigit = true) ∧ 2021 ≤ strToNat s))) := by
  refine ⟨fun h => by simp [validateYear, h], ?_, ?_⟩
  · intro h0 hlen hdig hlt
    have hany : s.data.any (fun c => !c.isDigit) = false := by
      simp only [List.any_eq_false, Bool.not_eq_true']
      intro c hc
      simp [hdig c hc]
    simp [validateYear, h0, hlen, hany, Nat.not_le.mpr hlt]
  · constructor
    · intro h
      by_cases h0 : s = "0"
      · simp [validateYear, h0] at h
      refine ⟨h0, ?_⟩
      by_cases hlen : s.length = 4
      · by_cases hany : s.data.any (fun c => !c.isDigit) = true
        · obtain ⟨c, hc, hcd⟩ := List.any_eq_true.mp hany
          exact Or.inr (Or.inl ⟨c, hc, by simpa using hcd⟩)
        · by_cases hge : 2021 ≤ strToNat s
          · refine Or.inr (Or.inr ⟨?_, hge⟩)
            intro c hc
            have hall := List.any_eq_false.mp (Bool.eq_false_iff.mpr hany)
            simpa using hall c hc
          · simp [validateYear, h0, hlen, hany, hge] at h
      · exact Or.inl hlen
    · rintro ⟨h0, hlen | ⟨c, hc, hcd⟩ | ⟨hall, hge⟩⟩
      · simp [validateYear, h0, hlen]
      · have hany : s.data.any (fun c => !c.isDigit) = true :=
          List.any_eq_true.mpr ⟨c, hc, by simpa using hcd⟩
        by_cases hlen : s.length = 4
        · simp [validateYear, h0, hlen, hany]
        · simp [validateYear, h0, hlen]
      · have hany : s.data.any (fun c => !c.isDigit) = false := by
          simp only [List.any_eq_false, Bool.not_eq_true']
          intro c hc
          simp [hall c hc]
        by_cases hlen : s.length = 4
        · simp [validateYear, h0, hlen, hany, hge]
        · simp [validateYear, h0, hlen]

/-- Witness for `validateYear_spec`: instantiated at the in-range string
"1999", whose validation succeeds with the denoted year. -/
theorem validateYear_spec_witness : validateYear "1999" = .ok (strToNat "1999") :=
  (validateYear_spec "1999").2.1 (by decide) (by decide) (by decide) (by decide)

/-- C10: in `populateFromWelshStatsJSON`, when a record passes the area
and measure filters but its parsed year lies outside a non-(0,0) year
range, the Area is still created (with its English name) if absent, and a
Measure is still inserted under the record's measure code — one containing
no reading at all; the year filter only suppresses recording the value. -/
theorem welshStatsJSON_year_filter_only_suppresses_value
    (r : StatsRecord) (A : AreasMap) (aF mF : Option (List String)) (ys ye y : Nat)
    (hAbsent : lookupA A r.authCode = none)
    (hArea : (aF.isNone || (aF.getD []).isEmpty || filterContains (aF.getD []) r.authCode)
        = true)
    (hMeas : (aF.isNone || (mF.getD []).isEmpty
        || filterContains (mF.getD []) (convertToLower r.measureCode)) = true)
    (hYear : validateYear r.yearStr = .ok y)
    (hRange : ¬ (ys = 0 ∧ ye = 0))
    (hOut : ¬ (ys ≤ y ∧ y ≤ ye)) :
    ∃ A' a m,
      Areas.populateFromWelshStatsJSON [r] aF mF (ys, ye) A = .ok A' ∧
      lookupA A' r.authCode = some a ∧
      lookupA a.names "eng" = some r.authNameEng ∧
      lookupA a.measures r.measureCode = some m ∧
      m.readings = [] ∧ m.label = r.measureName := by
  have hy2 : (decide (ys = 0) && decide (ye = 0)) = false := by
    have : ¬ ys = 0 ∨ ¬ ye = 0 := by tauto
    rcases this with h | h <;> simp [h]
  have hy3 : (decide (ys ≤ y) && decide (y ≤ ye)) = false := by
    have : ¬ ys ≤ y ∨ ¬ y ≤ ye := by tauto
    rcases this with h | h <;> simp [h]
  have key : Areas.populateFromWelshStatsJSON [r] aF mF (ys, ye) A =
      .ok (upsertA
        (upsertA A r.authCode ((Area.construct r.authCode).setName "eng" r.authNameEng))
        r.authCode
        (((Area.construct r.authCode).setName "eng" r.authNameEng).setMeasure
          r.measureCode (Measure.construct r.measureCode r.measureName))) := by
    rw [Areas.populateFromWelshStatsJSON]
    simp [welshStatsLoop, processWelshStatsRecord, hArea, hAbsent, hMeas, hYear, hy2, hy3,
      lookupA_upsertA_self]
  refine ⟨_, _, Measure.construct r.measureCode r.measureName, key,
    lookupA_upsertA_self _ _ _, ?_, ?_, ?_, ?_⟩
  · simp [Area.setMeasure, Area.setName, Area.construct, lookupA, upsertA]
  · simp [Area.setMeasure, Area.setName, Area.construct, lookupA, upsertA,
      lookupA_upsertA_self]
  · simp [Measure.construct]
  · simp [Measure.construct]

/-- Witness for `welshStatsJSON_year_filter_only_suppresses_value`: a
concrete record with year 1999 against the year range [2000, 2005] and
empty (match-all) filters, starting from an empty areas mapping. -/
theorem welshStatsJSON_year_filter_witness :
    ∃ A' a m,
      Areas.populateFromWelshStatsJSON
        [⟨"W06000001", "Isle of Anglesey", "Pop", "Population", "1999", 5⟩]
        (some []) (some []) (2000, 2005) [] = .ok A' ∧
      lookupA A' "W06000001" = some a ∧
      lookupA a.names "eng" = some "Isle of Anglesey" ∧
      lookupA a.measures "Pop" = some m ∧
      m.readings = [] ∧ m.label = "Population" :=
  welshStatsJSON_year_filter_only_suppresses_value
    ⟨"W06000001", "Isle of Anglesey", "Pop", "Population", "1999", 5⟩
    [] (some []) (some []) 2000 2005 1999
    rfl (by decide) (by decide) (by decide) (by decide) (by decide)
